import Mathlib

/-!
Verification of the ProtocolAnalyzer framework headers
(`include/framework/Common.hpp`, `include/framework/GlobalInfo.hpp`) and of the
binary structured data engine exercised by `test/test_binary_data_engine.cpp`.

The pure utility functions of `Common.hpp` and the callback lookup of
`GlobalInfo.hpp` are embedded directly from their C++ sources.  The
`BinaryDataEngine` / `BinaryStructuredDataEngine` classes are declared by the
aggregate header `AnalyzerApi.hpp` but their implementation headers are not
part of this tree; those operations are modelled from the specification, as
marked in their doc comments.
-/

namespace Analyzer

/-! ## common::text hex conversion (`Common.hpp`, lines 155-192) -/

/-- One hexadecimal digit character for a value below 16; uppercase letters
when the flag is set, mirroring `std::ios_base::uppercase`. -/
def hexDigitChar (n : Nat) (upper : Bool) : Char :=
  if n < 10 then Char.ofNat (48 + n)
  else if upper then Char.ofNat (55 + n)
  else Char.ofNat (87 + n)

/-- Hexadecimal digits of a number, least significant first, empty for zero.
Structural recursion on a fuel argument, in the style of `Nat.toDigitsCore`;
fuel `n` always suffices because the value shrinks 16-fold per step. -/
def toHexRevAux (upper : Bool) : Nat → Nat → List Char
  | 0, _ => []
  | fuel + 1, n =>
    if n = 0 then []
    else hexDigitChar (n % 16) upper :: toHexRevAux upper fuel (n / 16)

/-- Hexadecimal digits of a number, least significant first, empty for zero.
Helper for the stream insertion `result << std::hex << value`. -/
def toHexRev (upper : Bool) (n : Nat) : List Char :=
  toHexRevAux upper n n

/-- Hexadecimal digit string of a number, most significant first, the single
digit 0 for zero — what `operator<<(std::ostream, std::size_t)` prints in
`std::hex` mode. -/
def natToHexChars (n : Nat) (upper : Bool) : List Char :=
  if n = 0 then [Char.ofNat 48] else (toHexRev upper n).reverse

/-- `common::text::getHexValue` (`Common.hpp` line 165): formats the value
(already converted to `std::size_t`) with zero fill and `std::setw(width)` —
left zero padding up to `width`, never truncation. -/
def getHexValue (data : Nat) (width : Nat) (upper : Bool) : String :=
  String.mk (List.replicate (width - (natToHexChars data upper).length) (Char.ofNat 48)
    ++ natToHexChars data upper)

/-- `static_cast<std::size_t>` applied to a signed character value:
sign extension into the 64-bit unsigned size type. -/
def sizeTOfSignedChar (c : Int) : Nat :=
  (c % (2 ^ 64 : Int)).toNat

/-- `common::text::getHexString` (`Common.hpp` line 184): the loop
`for idx in [0, length): result += getHexValue(data[idx], width * sizeof(Type), upper)`.
The element byte width of the instantiated `Type` is passed explicitly. -/
def getHexString (sizeofT : Nat) (data : List Nat) (width : Nat) (upper : Bool) : String :=
  data.foldl (fun result v => result ++ getHexValue v (width * sizeofT) upper) ""

end Analyzer

namespace Analyzer

theorem natToHexChars_length_pos (n : Nat) (u : Bool) :
    0 < (natToHexChars n u).length := by
  unfold natToHexChars
  by_cases h : n = 0
  · simp [h]
  · simp only [h, if_false, List.length_reverse]
    obtain ⟨m, rfl⟩ := Nat.exists_eq_succ_of_ne_zero h
    simp [toHexRev, toHexRevAux]

set_option maxRecDepth 4096 in
/-- Evaluation fact used repeatedly: one byte below 256 formats with default
width 2 as exactly the pair of its nibble digits. -/
theorem byte_hexValue_pair : ∀ b : Nat, b < 256 →
    (getHexValue b 2 true).data
      = [hexDigitChar (b / 16) true, hexDigitChar (b % 16) true] := by
  decide

/-! ## Binary data engine

Modelled from the spec: the implementation headers `BinaryDataEngine.hpp` and
`BinaryStructuredDataEngine.hpp` are pulled in by `AnalyzerApi.hpp` but are not
part of this tree; the definitions below follow the specification of
components C4 and C5 (spec sections 3, 4.4, 4.5) and the concrete behaviour
the spec records for the test program (scenarios S1, S2, S3). -/

/-- Modelled from the spec: the three-valued endianness tag of section 3,
with native already resolved at construction to big or little, so a stored
tag is always one of these two. -/
inductive Endianness where
  | big : Endianness
  | little : Endianness
deriving DecidableEq, Repr

/-- Modelled from the spec: `BinaryDataEngine` (component C4) — a byte buffer
together with its endianness tag.  Bytes are values below 256. -/
structure BinaryDataEngine where
  bytes : List Nat
  endian : Endianness
deriving DecidableEq, Repr

/-- Modelled from the spec: `BinaryDataEngine::SetDataEndianType` — changing
the tag is a semantic relabeling of the same bytes, not a byte swap. -/
def SetDataEndianType (e : Endianness) (eng : BinaryDataEngine) : BinaryDataEngine :=
  { eng with endian := e }

/-- The bits of one byte, most significant first — the dependent bit mode
order of spec section 4.2 (bit b of a byte is bit 7 - b % 8). -/
def byteBitsMSB (b : Nat) : List Bool :=
  [b.testBit 7, b.testBit 6, b.testBit 5, b.testBit 4,
   b.testBit 3, b.testBit 2, b.testBit 1, b.testBit 0]

/-- The bits of one byte, least significant first — the independent bit mode
order of spec section 4.2 (bit b of a byte is bit b % 8). -/
def byteBitsLSB (b : Nat) : List Bool :=
  [b.testBit 0, b.testBit 1, b.testBit 2, b.testBit 3,
   b.testBit 4, b.testBit 5, b.testBit 6, b.testBit 7]

/-- Modelled from the spec: the buffer bytes taken in the engine endian
order (spec section 4.2: byte b / 8 is taken in endian order). -/
def orderedBytes (eng : BinaryDataEngine) : List Nat :=
  match eng.endian with
  | Endianness.big => eng.bytes
  | Endianness.little => eng.bytes.reverse

/-- Modelled from the spec: the dependent-mode bit sequence of the engine:
bytes in endian order, each byte most significant bit first. -/
def bitSequence (eng : BinaryDataEngine) : List Bool :=
  ((orderedBytes eng).map byteBitsMSB).flatten

/-- Modelled from the spec: `BinaryDataEngine::BitStreamEngine::Count` —
the population count over the whole bit sequence (spec section 4.3). -/
def Count (eng : BinaryDataEngine) : Nat :=
  (bitSequence eng).count true

/-- Modelled from the spec: `BinaryDataEngine::ToHexString` — continuous
uppercase hex pairs per byte with no separators (spec section 6), routed
through `common::text::getHexString` of `Common.hpp` with a one-byte
element type and default width 2. -/
def ToHexString (eng : BinaryDataEngine) : String :=
  getHexString 1 eng.bytes 2 true

/-! ## Binary structured data engine (component C5) -/

/-- One field of a trivially copyable source structure: its byte width and
its numeric value as held by the host program. -/
structure FieldValue where
  width : Nat
  value : Nat
deriving DecidableEq, Repr

/-- Serialisation of one field value into its bytes under an endianness:
most significant byte first for big endian, least significant first for
little endian. -/
def serializeField (e : Endianness) (w v : Nat) : List Nat :=
  match e with
  | Endianness.big => (List.range w).map (fun i => v / 256 ^ (w - 1 - i) % 256)
  | Endianness.little => (List.range w).map (fun i => v / 256 ^ i % 256)

/-- Modelled from the spec: `BinaryStructuredDataEngine` (component C5) —
a data engine plus the adopted byte-width pattern. -/
structure BinaryStructuredDataEngine where
  engine : BinaryDataEngine
  pattern : List Nat
deriving DecidableEq, Repr

/-- Modelled from the spec: `BinaryStructuredDataEngine::AssignData`
(spec section 4.5) — copies the source fields into a new owned buffer and
stores the pattern; each multi-byte field is laid out in the engine
endianness chosen at construction (pinned by scenario S1: the hex dump of
the big-endian engine shows the 0x00FF window-size field as 00 FF). -/
def AssignData (e : Endianness) (fields : List FieldValue) (pattern : List Nat) :
    BinaryStructuredDataEngine :=
  { engine := { bytes := (fields.map (fun f => serializeField e f.width f.value)).flatten
                endian := e }
    pattern := pattern }

/-- Modelled from the spec: `BinaryStructuredDataEngine::Data` — returns the
underlying data engine (spec section 4.5). -/
def Data (s : BinaryStructuredDataEngine) : BinaryDataEngine :=
  s.engine

/-- Modelled from the spec: `BinaryStructuredDataEngine::FieldCount` — the
pattern length (spec section 4.5). -/
def FieldCount (s : BinaryStructuredDataEngine) : Nat :=
  s.pattern.length

/-- Modelled from the spec: `BinaryStructuredDataEngine::FieldLength` — the
width of field i, absent when the index is out of the pattern
(spec sections 4.5 and 7: reads surface failures as an absent value). -/
def FieldLength (s : BinaryStructuredDataEngine) (i : Nat) : Option Nat :=
  s.pattern.get? i

/-- Byte offset of field i: the sum of the widths before it. -/
def fieldOffset (pattern : List Nat) (i : Nat) : Nat :=
  ((pattern.take i).foldl (fun a b => a + b) 0)

/-- Assembly of a byte list into one host integer, reading the bytes in the
given endian order (spec section 4.2: field-level reads assemble the value
by reading bytes in the engine endian order). -/
def deserializeField (e : Endianness) (bs : List Nat) : Nat :=
  match e with
  | Endianness.big => bs.foldl (fun a b => a * 256 + b) 0
  | Endianness.little => bs.reverse.foldl (fun a b => a * 256 + b) 0

/-- Modelled from the spec: `BinaryStructuredDataEngine::GetField` with a
target type of byte width tWidth (spec section 4.5) — fails if the index is
out of the pattern or the type width differs from the field width, otherwise
assembles the field bytes under the engine endianness. -/
def GetField (s : BinaryStructuredDataEngine) (tWidth : Nat) (i : Nat) : Option Nat :=
  match s.pattern.get? i with
  | none => none
  | some w =>
    if w = tWidth then
      some (deserializeField s.engine.endian ((s.engine.bytes.drop (fieldOffset s.pattern i)).take w))
    else none

/-- Split of a bit sequence by a list of bit widths into consecutive slices. -/
def splitWidths : List Nat → List Bool → List (List Bool)
  | [], _ => []
  | w :: ws, bits => bits.take w :: splitWidths ws (bits.drop w)

/-- Indices of the slices that contain at least one set bit, in ascending
order. -/
def nonemptyIdxList (slices : List (List Bool)) : List Nat :=
  (List.range slices.length).filter (fun i => (slices.getD i []).any (fun b => b))

/-- Modelled from the spec: `BinaryStructuredDataEngine::GetNonemptyFieldIndex`
(spec section 4.5) — overlays the bit-width schema on the buffer and returns
the index of the k-th sub-field whose bits are not all zero, ties broken in
ascending index order, absent when fewer than k + 1 non-empty sub-fields
exist.  Sub-field bits are taken per byte least significant bit first
(independent addressing), the reading pinned by the concrete outputs of
scenario S2. -/
def GetNonemptyFieldIndex (s : BinaryStructuredDataEngine) (k : Nat)
    (bitPattern : List Nat) : Option Nat :=
  (nonemptyIdxList (splitWidths bitPattern (s.engine.bytes.map byteBitsLSB).flatten)).get? k

/-! ## The test program input (`test/test_binary_data_engine.cpp`, lines 25-51) -/

/-- The packed TCP-like header initialised at line 35 of the test:
field values with their declared byte widths. -/
def tcpFields : List FieldValue :=
  [⟨4, 0⟩, ⟨4, 0⟩, ⟨1, 0x0C⟩, ⟨1, 0x00⟩, ⟨2, 0x00FF⟩, ⟨2, 0xAAAA⟩, ⟨2, 0x0000⟩]

/-- The byte pattern of line 46 of the test. -/
def tcpPattern : List Nat := [4, 4, 1, 1, 2, 2, 2]

/-- The bit pattern of line 47 of the test. -/
def tcpBitPattern : List Nat := [32, 32, 4, 3, 3, 6, 9, 7, 16, 16]

/-- The structured engine built at lines 50-51 of the test: big endian,
assigned the TCP-like header with the byte pattern. -/
def tcpStructured : BinaryStructuredDataEngine :=
  AssignData Endianness.big tcpFields tcpPattern

/-- Helper for the endianness invariance of the population count: reversing
the byte list does not change the number of set bits in the flattened bit
sequence. -/
theorem count_flatten_map_reverse (f : Nat → List Bool) (l : List Nat) :
    ((l.reverse.map f).flatten).count true = ((l.map f).flatten).count true := by
  induction l with
  | nil => rfl
  | cons a t ih =>
    simp only [List.reverse_cons, List.map_append, List.flatten_append, List.count_append,
      List.map_cons, List.map_nil, List.flatten_cons, List.flatten_nil, List.append_nil, ih]
    omega

/-- C1 counterexample: the packed TCP-like header of the test is 16 bytes
(4 + 4 + 1 + 1 + 2 + 2 + 2), not 20 bytes as the claim describes it; its hex
dump accordingly has 32 characters, not 40. -/
theorem tcp_header_is_16_bytes_not_20 :
    (Data tcpStructured).bytes.length = 16 ∧ (Data tcpStructured).bytes.length ≠ 20 ∧
    (ToHexString (Data tcpStructured)).length = 32 := by
  refine ⟨by decide, by decide, ?_⟩
  rfl

/-- C1 (amended to the 16-byte header): for the TCP-like header assigned
into a big-endian structured engine with byte pattern [4,4,1,1,2,2,2],
field_count() returns 7, field_length(4) returns 2, get_field of a two-byte
unsigned type at index 4 returns 0x00FF, and the hex dump of the whole
buffer is exactly the 32-character string 00000000000000000C0000FFAAAA0000. -/
theorem tcp_structured_engine_carve :
    FieldCount tcpStructured = 7 ∧
    FieldLength tcpStructured 4 = some 2 ∧
    GetField tcpStructured 2 4 = some 0x00FF ∧
    ToHexString (Data tcpStructured) = "00000000000000000C0000FFAAAA0000" := by
  refine ⟨by decide, by decide, by decide, ?_⟩
  rfl

/-- C2: overlaying the bit-width pattern [32,32,4,3,3,6,9,7,16,16] on the
same buffer, get_nonempty_field_index returns 2 for k = 0 and 6 for k = 1,
and returns the absent sentinel for every k at or beyond the number of
sub-fields that contain a set bit. -/
theorem tcp_nonempty_field_search :
    GetNonemptyFieldIndex tcpStructured 0 tcpBitPattern = some 2 ∧
    GetNonemptyFieldIndex tcpStructured 1 tcpBitPattern = some 6 ∧
    ∀ k : Nat,
      (nonemptyIdxList (splitWidths tcpBitPattern
        ((Data tcpStructured).bytes.map byteBitsLSB).flatten)).length ≤ k →
      GetNonemptyFieldIndex tcpStructured k tcpBitPattern = none := by
  refine ⟨by decide, by decide, fun k hk => ?_⟩
  unfold GetNonemptyFieldIndex
  exact List.get?_eq_none.mpr hk

/-- Witness for C2 at the concrete query k = 9 issued by the test: only four
sub-fields contain a set bit, so the result is absent. -/
theorem tcp_nonempty_field_search_witness :
    GetNonemptyFieldIndex tcpStructured 9 tcpBitPattern = none :=
  tcp_nonempty_field_search.2.2 9 (by decide)

/-- C3: for every engine holding a fixed byte buffer, relabeling the
endianness tag between big and little leaves the bit population count
unchanged. -/
theorem count_endian_relabel_invariant (eng : BinaryDataEngine) :
    Count (SetDataEndianType Endianness.big eng) =
      Count (SetDataEndianType Endianness.little eng) := by
  show ((eng.bytes.map byteBitsMSB).flatten).count true
    = ((eng.bytes.reverse.map byteBitsMSB).flatten).count true
  exact (count_flatten_map_reverse byteBitsMSB eng.bytes).symm

/-- Witness for C3 at the two-byte buffer 0x12 0x34 of scenario S3: the
population count is the same under both endian tags. -/
theorem count_endian_relabel_invariant_witness :
    Count (SetDataEndianType Endianness.big ⟨[0x12, 0x34], Endianness.little⟩) =
      Count (SetDataEndianType Endianness.little ⟨[0x12, 0x34], Endianness.little⟩) :=
  count_endian_relabel_invariant ⟨[0x12, 0x34], Endianness.little⟩

/-! ## common::GetRandomValue (`Common.hpp`, lines 39-48) -/

/-- Machine increment in an unsigned integral type of bit width w: the
expression begin + 1 of the source, with wraparound. -/
def wrapIncr (w n : Nat) : Nat := (n + 1) % 2 ^ w

/-- Machine decrement in an unsigned integral type of bit width w: the
expression end - 1 of the source, with wraparound. -/
def wrapDecr (w n : Nat) : Nat := (n + (2 ^ w - 1)) % 2 ^ w

/-- `common::GetRandomValue` (`Common.hpp` line 47): the pair
param_t(begin + 1, end - 1) handed to the uniform distribution, computed in
an unsigned integral type of bit width w. -/
def GetRandomValueParam (w b e : Nat) : Nat × Nat :=
  (wrapIncr w b, wrapDecr w e)

/-- The precondition a ≤ b that `std::uniform_int_distribution` places on
its parameters; a draw with parameters violating it has no defined result. -/
def distRequirementHolds (p : Nat × Nat) : Prop := p.1 ≤ p.2

instance (p : Nat × Nat) : Decidable (distRequirementHolds p) :=
  inferInstanceAs (Decidable (p.1 ≤ p.2))

/-- A value the distribution may return for parameters p: any r with
p.1 ≤ r ≤ p.2. -/
def inUniformSupport (p : Nat × Nat) (r : Nat) : Prop := p.1 ≤ r ∧ r ≤ p.2

/-- C4 counterexample: at begin = end = 0 in the 8-bit unsigned type, the
subtraction end - 1 wraps to 255, the parameters are (1, 255), and the
requirement a ≤ b of the distribution holds — so the call does have a
defined result, contrary to the claim that begin == end always violates
the requirement. -/
theorem getRandomValue_defined_at_zero_bounds :
    GetRandomValueParam 8 0 0 = (1, 255) ∧
    distRequirementHolds (GetRandomValueParam 8 0 0) := by
  exact ⟨by decide, by decide⟩

/-- C4 (amended): GetRandomValue parameterises the distribution with
(begin + 1, end - 1); away from wraparound (begin + 2 ≤ end) the parameters
are literally (begin + 1, end - 1) and every value of the support lies in
that shrunk inclusive range; and for begin = end the requirement a ≤ b is
violated exactly when begin is neither the minimum nor the maximum value of
the type — at the two extremes the increment or decrement wraps and the
parameters become an ordered pair again. -/
theorem getRandomValue_param_range (w b e : Nat) (hw : 1 ≤ w)
    (hb : b < 2 ^ w) (he : e < 2 ^ w) :
    (b + 2 ≤ e →
      GetRandomValueParam w b e = (b + 1, e - 1) ∧
      ∀ r : Nat, inUniformSupport (GetRandomValueParam w b e) r →
        b + 1 ≤ r ∧ r ≤ e - 1) ∧
    (b = e →
      (¬ distRequirementHolds (GetRandomValueParam w b e) ↔
        0 < b ∧ b < 2 ^ w - 1)) := by
  have hP : 2 ≤ 2 ^ w := by
    calc 2 = 2 ^ 1 := by norm_num
    _ ≤ 2 ^ w := Nat.pow_le_pow_right (by norm_num) hw
  constructor
  · intro hbe
    have h1 : wrapIncr w b = b + 1 := Nat.mod_eq_of_lt (by omega)
    have h2 : wrapDecr w e = e - 1 := by
      unfold wrapDecr
      have he1 : e + (2 ^ w - 1) = (e - 1) + 2 ^ w := by omega
      rw [he1, Nat.add_mod_right]
      exact Nat.mod_eq_of_lt (by omega)
    have hp : GetRandomValueParam w b e = (b + 1, e - 1) := by
      unfold GetRandomValueParam
      rw [h1, h2]
    refine ⟨hp, fun r hr => ?_⟩
    rw [hp] at hr
    exact hr
  · intro hbe
    subst hbe
    unfold distRequirementHolds GetRandomValueParam wrapIncr wrapDecr
    by_cases hb0 : b = 0
    · subst hb0
      rw [Nat.zero_add, Nat.zero_add, Nat.mod_eq_of_lt (by omega : 1 < 2 ^ w),
        Nat.mod_eq_of_lt (by omega : 2 ^ w - 1 < 2 ^ w)]
      constructor
      · intro h
        exact absurd (by omega : 1 ≤ 2 ^ w - 1) h
      · omega
    · by_cases hbm : b = 2 ^ w - 1
      · subst hbm
        have e1 : 2 ^ w - 1 + 1 = 2 ^ w := by omega
        have e2 : 2 ^ w - 1 + (2 ^ w - 1) = (2 ^ w - 2) + 2 ^ w := by omega
        rw [e1, Nat.mod_self, e2, Nat.add_mod_right,
          Nat.mod_eq_of_lt (by omega : 2 ^ w - 2 < 2 ^ w)]
        constructor
        · intro h
          exact absurd (Nat.zero_le _) h
        · omega
      · have h1 : (b + 1) % 2 ^ w = b + 1 := Nat.mod_eq_of_lt (by omega)
        have h2 : (b + (2 ^ w - 1)) % 2 ^ w = b - 1 := by
          have e1 : b + (2 ^ w - 1) = (b - 1) + 2 ^ w := by omega
          rw [e1, Nat.add_mod_right]
          exact Nat.mod_eq_of_lt (by omega)
        rw [h1, h2]
        constructor
        · intro _
          omega
        · intro _
          omega

/-- Witness for C4: away from wraparound the parameters really are the
shrunk pair — at (begin, end) = (3, 7) in 8 bits they are (4, 6); and at
begin = end = 5 the requirement a ≤ b is violated. -/
theorem getRandomValue_param_range_witness :
    GetRandomValueParam 8 3 7 = (4, 6) ∧
    ¬ distRequirementHolds (GetRandomValueParam 8 5 5) :=
  ⟨((getRandomValue_param_range 8 3 7 (by norm_num) (by norm_num)
      (by norm_num)).1 (by norm_num)).1,
   ((getRandomValue_param_range 8 5 5 (by norm_num) (by norm_num)
      (by norm_num)).2 rfl).mpr ⟨by norm_num, by norm_num⟩⟩

/-! ## Hex string length and shape (claims about `Common.hpp` lines 164-192) -/

/-- The character data of the appending fold that builds getHexString is the
concatenation of the character data of the pieces, in order. -/
theorem foldl_append_data (f : Nat → String) (l : List Nat) (s : String) :
    (l.foldl (fun r v => r ++ f v) s).data
      = s.data ++ (l.map (fun v => (f v).data)).flatten := by
  induction l generalizing s with
  | nil => simp
  | cons a t ih =>
    simp only [List.foldl_cons, List.map_cons, List.flatten_cons]
    rw [ih, String.data_append, List.append_assoc]

/-- Each two-character hex pair contributes length 2, so the flattened dump
of n bytes has 2 n characters. -/
theorem sum_map_length_pairs (l : List Nat) :
    ((l.map (fun b =>
      [hexDigitChar (b / 16) true, hexDigitChar (b % 16) true])).map
        List.length).sum = 2 * l.length := by
  induction l with
  | nil => rfl
  | cons a t ih =>
    simp only [List.map_cons, List.sum_cons, List.length_cons, ih]
    simp
    omega

/-- C5: for every byte sequence (each value below 256), getHexString with
default arguments (width 2, uppercase) returns exactly two uppercase
hexadecimal digits per input byte, in byte order with no separators; in
particular the string length is exactly 2 times the byte count. -/
theorem getHexString_default_bytes (bytes : List Nat)
    (hb : ∀ b ∈ bytes, b < 256) :
    (getHexString 1 bytes 2 true).length = 2 * bytes.length ∧
    (getHexString 1 bytes 2 true).data
      = (bytes.map
          (fun b => [hexDigitChar (b / 16) true, hexDigitChar (b % 16) true])).flatten := by
  have hdata : (getHexString 1 bytes 2 true).data
      = (bytes.map
          (fun b => [hexDigitChar (b / 16) true, hexDigitChar (b % 16) true])).flatten := by
    unfold getHexString
    rw [foldl_append_data]
    have hmap : bytes.map (fun v => (getHexValue v (2 * 1) true).data)
        = bytes.map
          (fun b => [hexDigitChar (b / 16) true, hexDigitChar (b % 16) true]) :=
      List.map_congr_left (fun b hmem => byte_hexValue_pair b (hb b hmem))
    rw [hmap]
    rfl
  refine ⟨?_, hdata⟩
  show (getHexString 1 bytes 2 true).data.length = 2 * bytes.length
  rw [hdata, List.length_flatten]
  exact sum_map_length_pairs bytes

/-- Witness for C5 at the two-byte input [0x0C, 0xFF]: the hex string has
four characters, the pairs 0C and FF in order. -/
theorem getHexString_default_bytes_witness :
    (getHexString 1 [12, 255] 2 true).length = 2 * 2 ∧
    (getHexString 1 [12, 255] 2 true).data
      = ([12, 255].map
          (fun b => [hexDigitChar (b / 16) true, hexDigitChar (b % 16) true])).flatten := by
  have h := getHexString_default_bytes [12, 255] (by decide)
  simpa using h

/-- C10: getHexValue returns the hex digits of the (size-type-converted)
value left-padded with zeros to a minimum of width characters but never
truncated — the length is the maximum of the width and the digit count, and
when the value needs more digits than the width the result is strictly
longer than the width. -/
theorem getHexValue_pads_never_truncates (data width : Nat) (u : Bool) :
    (getHexValue data width u).length
      = max width (natToHexChars data u).length ∧
    (width < (natToHexChars data u).length →
      width < (getHexValue data width u).length) := by
  have hlen : (getHexValue data width u).length
      = (width - (natToHexChars data u).length) + (natToHexChars data u).length := by
    show (List.replicate (width - (natToHexChars data u).length) (Char.ofNat 48)
      ++ natToHexChars data u).length = _
    rw [List.length_append, List.length_replicate]
  constructor
  · rw [hlen]
    omega
  · intro h
    rw [hlen]
    omega

/-- Witness for C10: the char value -1 sign-extended to the 64-bit size type
is 0xFFFFFFFFFFFFFFFF, which needs 16 hex digits; with the default width 2
the result is strictly longer than 2 characters (16, nothing truncated). -/
theorem getHexValue_pads_never_truncates_witness :
    2 < (getHexValue (sizeTOfSignedChar (-1)) 2 true).length :=
  (getHexValue_pads_never_truncates (sizeTOfSignedChar (-1)) 2 true).2 (by decide)

/-! ## common::Data container (`Common.hpp`, lines 302-373) -/

namespace common

/-- `common::Data` (`Common.hpp` line 307): a container holding a pointer
to elements (modelled as the underlying memory, a total map from indices to
elements) together with a stored length. -/
structure Data (α : Type) where
  buf : Nat → α
  length : Nat

/-- `common::Data::Size` (`Common.hpp` line 348): the stored length. -/
def Data.Size {α : Type} (d : Data α) : Nat := d.length

/-- `common::Data::GetAt` (`Common.hpp` line 369): the bounds-checked read,
index < length ? pointer to element : nullptr.  The possibly-null pointer is
an Option; the method is const and cannot modify the container. -/
def Data.GetAt {α : Type} (d : Data α) (index : Nat) : Option α :=
  if index < d.length then some (d.buf index) else none

end common

/-- C6: for every container and index, the bounds-checked read returns the
null sentinel exactly when the index is at or beyond the length, and
otherwise returns the element at the index; being a pure function of the
container, it leaves contents and length untouched. -/
theorem data_getAt_bounds {α : Type} (d : common.Data α) (i : Nat) :
    (common.Data.GetAt d i = none ↔ d.length ≤ i) ∧
    (i < d.length → common.Data.GetAt d i = some (d.buf i)) := by
  unfold common.Data.GetAt
  constructor
  · constructor
    · intro h
      by_contra hlt
      rw [if_pos (by omega)] at h
      exact Option.noConfusion h
    · intro h
      rw [if_neg (by omega)]
  · intro h
    rw [if_pos h]

/-- Witness for C6 at a concrete three-element container: index 1 is read,
index 5 is rejected with the null sentinel. -/
theorem data_getAt_bounds_witness :
    common.Data.GetAt (⟨fun j => j + 10, 3⟩ : common.Data Nat) 1 = some 11 ∧
    common.Data.GetAt (⟨fun j => j + 10, 3⟩ : common.Data Nat) 5 = none :=
  ⟨(data_getAt_bounds (⟨fun j => j + 10, 3⟩ : common.Data Nat) 1).2 (by norm_num),
   (data_getAt_bounds (⟨fun j => j + 10, 3⟩ : common.Data Nat) 5).1.mpr (by norm_num)⟩

/-! ## common::is_pod_type (`Common.hpp`, lines 421-437) -/

/-- The standard type-trait facts of a C++ type that the POD check can
observe: whether the type is trivially copyable, whether it is trivially
default constructible, and whether it has standard layout. -/
structure CppTypeTraits where
  triviallyCopyable : Bool
  triviallyDefaultConstructible : Bool
  standardLayout : Bool
deriving DecidableEq, Repr

/-- `std::is_trivial`: per the C++ standard a type is trivial when it is
trivially copyable and trivially default constructible. -/
def isTrivial (t : CppTypeTraits) : Bool :=
  t.triviallyCopyable && t.triviallyDefaultConstructible

/-- `common::is_pod_type` (`Common.hpp` line 434): the true specialisation
is selected exactly when `std::is_trivial` and `std::is_standard_layout`
both hold. -/
def is_pod_type (t : CppTypeTraits) : Bool :=
  isTrivial t && t.standardLayout

/-- C7 counterexample: a C++ type with a user-provided default constructor
but defaulted copy operations and uniform access control — for example
struct S with a constructor body and one int member — is trivially copyable
and standard layout yet not trivially default constructible; is_pod_type
rejects it although the POD input contract only demands trivially copyable. -/
theorem is_pod_type_rejects_a_trivially_copyable_type :
    (⟨true, false, true⟩ : CppTypeTraits).triviallyCopyable = true ∧
    is_pod_type ⟨true, false, true⟩ = false := by
  exact ⟨rfl, rfl⟩

/-- C7 (amended): is_pod_type holds exactly when the type is trivial (that
is, trivially copyable and trivially default constructible) and has
standard layout — a strictly stronger requirement than trivially copyable:
every accepted type is trivially copyable, but not conversely. -/
theorem is_pod_type_iff_trivial_standard_layout (t : CppTypeTraits) :
    (is_pod_type t = true ↔ (isTrivial t = true ∧ t.standardLayout = true)) ∧
    (is_pod_type t = true → t.triviallyCopyable = true) := by
  constructor
  · unfold is_pod_type
    exact Bool.and_eq_true_iff.symm.symm
  · intro h
    unfold is_pod_type isTrivial at h
    rcases Bool.and_eq_true_iff.mp h with ⟨h1, _⟩
    rcases Bool.and_eq_true_iff.mp h1 with ⟨h2, _⟩
    exact h2

/-- Witness for C7 at the fully trivial standard-layout type descriptor:
is_pod_type accepts it and it is trivially copyable. -/
theorem is_pod_type_iff_witness :
    isTrivial ⟨true, true, true⟩ = true ∧
    (⟨true, true, true⟩ : CppTypeTraits).standardLayout = true :=
  (is_pod_type_iff_trivial_standard_layout ⟨true, true, true⟩).1.mp (by decide)

/-! ## common::file::ErrorState (`Common.hpp`, lines 236-277) -/

/-- The bit width of `std::size_t` on the 64-bit platforms the project
targets. -/
def sizeTBitWidth : Nat := 64

/-- `common::file::ErrorState` (`Common.hpp` line 242): defined in the
source as `std::numeric_limits<std::size_t>::max()`. -/
def fileErrorState : Nat := 2 ^ sizeTBitWidth - 1

/-- C8: the sentinel the file utilities use for file-size errors and
not-found results equals the maximum value of the size type: it evaluates
to 0xFFFFFFFFFFFFFFFF and no size-type value exceeds it. -/
theorem fileErrorState_is_sizeT_max :
    fileErrorState = 18446744073709551615 ∧
    ∀ n : Nat, n < 2 ^ sizeTBitWidth → n ≤ fileErrorState := by
  constructor
  · rfl
  · intro n h
    unfold fileErrorState
    unfold sizeTBitWidth at h ⊢
    omega

/-- Witness for C8 at the concrete size value 1048576 (the default buffer
size of `Common.hpp` line 24). -/
theorem fileErrorState_is_sizeT_max_witness :
    (1048576 : Nat) ≤ fileErrorState :=
  fileErrorState_is_sizeT_max.2 1048576 (by norm_num [sizeTBitWidth])

/-! ## storage::GlobalInfo::GetCallback (`GlobalInfo.hpp`, lines 76-92) -/

/-- The observable state of the `storage::GlobalInfo` registry: the number
of framework module types, the per-module callback tables (a null table or
an array of possibly-null functor pointers), the per-module table size
reported by `GetModuleCallbacksSize`, and the behaviour of the
`dynamic_cast` to the requested functor type (which may itself fail). -/
structure GlobalInfoState where
  moduleTypesSize : Nat
  tables : Nat → Option (Nat → Option Nat)
  moduleCallbacksSize : Nat → Nat
  dynCast : Nat → Option Nat

/-- `storage::GlobalInfo::GetCallback` (`GlobalInfo.hpp` lines 77-92):
returns nullptr when the module index is at or beyond
FRAMEWORK_MODULE_TYPES_SIZE, when no callback table is installed for the
module, or when the callback index is at or beyond the module table size;
otherwise the dynamic cast of the stored pointer.  The method is const: the
state it leaves behind is returned alongside the result. -/
def GetCallback (s : GlobalInfoState) (module callback : Nat) :
    Option Nat × GlobalInfoState :=
  if s.moduleTypesSize ≤ module then (none, s)
  else
    match s.tables module with
    | none => (none, s)
    | some tbl =>
      if callback < s.moduleCallbacksSize module then
        ((tbl callback).bind s.dynCast, s)
      else (none, s)

/-- C9: every failing lookup — module index out of range, missing module
table, or callback index out of the table — returns the null sentinel
rather than aborting, and leaves the registry state identical. -/
theorem getCallback_fails_safe (s : GlobalInfoState) (module callback : Nat)
    (h : s.moduleTypesSize ≤ module ∨ s.tables module = none ∨
      s.moduleCallbacksSize module ≤ callback) :
    (GetCallback s module callback).1 = none ∧
    (GetCallback s module callback).2 = s := by
  unfold GetCallback
  by_cases h1 : s.moduleTypesSize ≤ module
  · rw [if_pos h1]
    exact ⟨rfl, rfl⟩
  · rw [if_neg h1]
    rcases h with h | h | h
    · exact absurd h h1
    · rw [h]
      exact ⟨rfl, rfl⟩
    · cases ht : s.tables module with
      | none =>
        exact ⟨rfl, rfl⟩
      | some tbl =>
        dsimp only
        rw [if_neg (Nat.not_lt.mpr h)]
        exact ⟨rfl, rfl⟩

/-- Witness for C9 at a concrete registry with two module types and no
installed tables: looking up module 5 returns the null sentinel and the
state is unchanged. -/
theorem getCallback_fails_safe_witness :
    (GetCallback ⟨2, fun _ => none, fun _ => 0, fun n => some n⟩ 5 0).1 = none ∧
    (GetCallback ⟨2, fun _ => none, fun _ => 0, fun n => some n⟩ 5 0).2 =
      ⟨2, fun _ => none, fun _ => 0, fun n => some n⟩ :=
  getCallback_fails_safe ⟨2, fun _ => none, fun _ => 0, fun n => some n⟩ 5 0
    (Or.inl (by norm_num))

end Analyzer
